import Mathlib

/-!
# FlightAnalysisRadar — verification of the ingestion and analysis core

A shallow embedding of the data-normalization and analysis code of the
FlightAnalysisRadar repository (`app/data_processor.py`, `app/analyzer.py`),
together with theorems settling the frozen specification claims.

Modelling conventions:
* A pandas cell that may be NaN/NaT is an `Option` value (`none` = missing).
* Machine floats are modelled as exact rationals `ℚ`.  Timestamps are rational
  seconds, delays rational minutes, calendar dates integer day numbers.
* A DataFrame is a fixed-schema record of per-column presence flags plus a
  list of rows of optional fields; pandas raises `KeyError` on access to an
  absent column, which the embedding reflects with `Except`.
* pandas `sort_values` with the default kind is not guaranteed stable on tied
  keys; the embedding uses a stable sort (ties keep input order).  No claim
  depends on the relative order of records with equal timestamps.
-/

namespace FlightRadar

/-! ## Generic list utilities -/

/-- Unique values of a list in order of first appearance
(pandas `Series.unique`). -/
def firsts {α : Type} [DecidableEq α] : List α → List α
  | [] => []
  | x :: xs => x :: (firsts xs).filter (· ≠ x)

/-- Bool-valued contiguous-sublist test on character lists. -/
def infixOfB (pat : List Char) : List Char → Bool
  | [] => pat.isEmpty
  | c :: t => pat.isPrefixOf (c :: t) || infixOfB pat t

/-- The characters of a string, lower-cased. -/
def lowerChars (s : String) : List Char := s.data.map Char.toLower

/-- Case-insensitive substring containment
(pandas `Series.str.contains(pat, case=False)` for a literal pattern). -/
def containsCI (s pat : String) : Bool :=
  infixOfB (lowerChars pat) (lowerChars s)

/-- Index of the first occurrence of `s`, `none` when absent
(column label lookup). -/
def firstIdx (s : String) : List String → Option ℕ
  | [] => none
  | n :: ns => if n = s then some 0 else (firstIdx s ns).map (· + 1)

/-- Arithmetic mean; `none` for the empty list (pandas skipna mean is NaN
when no values are present). -/
def listMean (l : List ℚ) : Option ℚ :=
  if l.isEmpty then none else some (l.sum / l.length)

/-- Round to the nearest integer, ties to even (numpy rounding). -/
def roundHalfEven (q : ℚ) : ℤ :=
  let f := ⌊q⌋
  let r := q - f
  if r < 1/2 then f
  else if 1/2 < r then f + 1
  else if f % 2 = 0 then f else f + 1

/-- Round to two decimal places, ties to even (`DataFrame.round(2)`;
the binary-float representation error of the source is not modelled). -/
def round2 (q : ℚ) : ℚ := (roundHalfEven (q * 100) : ℚ) / 100

/-- First element attaining the maximum of `f`
(pandas `idxmax`: first occurrence wins ties). -/
def firstArgmax {α : Type} (f : α → ℚ) : List α → Option α
  | [] => none
  | x :: xs =>
    match firstArgmax f xs with
    | none => some x
    | some y => if f x < f y then some y else some x

/-- Linear-interpolation quantile of an ascending-sorted nonempty list
(pandas `Series.quantile`, default interpolation). -/
def quantileSorted (l : List ℚ) (p : ℚ) : ℚ :=
  let n := l.length
  let h := p * (n - 1)
  let lo := (⌊h⌋).toNat
  let a := l.getD lo 0
  let b := l.getD (lo + 1) (l.getD lo 0)
  a + (h - ⌊h⌋) * (b - a)

/-- Sample variance (denominator `n − 1`); `none` when fewer than two values
(pandas `Series.std` is NaN there).  The source reports the standard
deviation, i.e. the square root of this quantity; the square root is
irrational in general and no claim mentions its numeric value, so the
variance is carried instead. -/
def sampleVar (l : List ℚ) : Option ℚ :=
  if l.length < 2 then none
  else
    match listMean l with
    | none => none
    | some m => some ((l.map (fun x => (x - m) ^ 2)).sum / (l.length - 1))

/-! ## Configuration (`config.py` → `analysis_params`) -/

/-- The analysis parameters read from the configuration
(`config['analysis_params']`). -/
structure Params where
  delay_threshold : ℚ
  cascade_factor : ℚ
  simulation_delay_reduction : ℚ
  deriving DecidableEq

/-- `Config.DEFAULT_CONFIG["analysis_params"]`:
threshold 15, cascade factor 0.4, reduction 5. -/
def defaultParams : Params :=
  { delay_threshold := 15, cascade_factor := 2/5, simulation_delay_reduction := 5 }

/-! ## DataFrame model -/

/-- One row of the processed frame.  Each field is an optional value
(`none` = NaN/NaT).  Timestamps (`stdDt`, `atdDt`, `staDt`, `ataDt`) are
seconds; delays are minutes; `date` is a day number. -/
structure Row where
  flightNumber : Option String := none
  airline : Option String := none
  date : Option ℤ := none
  dayOfWeek : Option String := none
  depHour : Option ℕ := none
  stdDt : Option ℚ := none
  atdDt : Option ℚ := none
  staDt : Option ℚ := none
  ataDt : Option ℚ := none
  depDelay : Option ℚ := none
  arrDelay : Option ℚ := none
  onTime : Option Bool := none
  deriving DecidableEq

instance : Inhabited Row := ⟨{}⟩

/-- A processed DataFrame: which named columns exist, plus the rows.
A `false` flag means the column is absent (`'X' in df.columns` is false);
row fields under an absent column are meaningless and never read. -/
structure DF where
  hasFlightNumber : Bool := false
  hasAirline : Bool := false
  hasDate : Bool := false
  hasDayOfWeek : Bool := false
  hasDepHour : Bool := false
  hasSTDdt : Bool := false
  hasATDdt : Bool := false
  hasSTAdt : Bool := false
  hasATAdt : Bool := false
  hasDepDelay : Bool := false
  hasArrDelay : Bool := false
  hasOnTime : Bool := false
  rows : List Row
  deriving DecidableEq

/-! ## DataProcessor: delay calculation and the on-time flag
(`data_processor.py`, `_calculate_delays` and `_add_derived_features`) -/

/-- First step of `_calculate_delays`: adds `Departure Delay (min)` when
both `STD_dt` and `ATD_dt` columns exist, as
`(ATD_dt − STD_dt).dt.total_seconds() / 60` (NaT operands give NaN). -/
def calcDepDelay (df : DF) : DF :=
  if df.hasSTDdt && df.hasATDdt then
    { df with
      hasDepDelay := true
      rows := df.rows.map fun r =>
        { r with depDelay := r.atdDt.bind fun a => r.stdDt.map fun s => (a - s) / 60 } }
  else df

/-- Second step of `_calculate_delays`: symmetrically, `Arrival Delay (min)`
from `STA_dt` and `ATA_time_dt`. -/
def calcArrDelay (df : DF) : DF :=
  if df.hasSTAdt && df.hasATAdt then
    { df with
      hasArrDelay := true
      rows := df.rows.map fun r =>
        { r with arrDelay := r.ataDt.bind fun a => r.staDt.map fun s => (a - s) / 60 } }
  else df

/-- `_calculate_delays`: both steps in source order. -/
def calculateDelays (df : DF) : DF := calcArrDelay (calcDepDelay df)

/-- The `On Time` step of `_add_derived_features`:
`df['On Time'] = df['Departure Delay (min)'] <= delay_threshold`.
A pandas comparison with NaN yields `False`, so a row with a missing delay
gets the flag value `false`, not NaN. -/
def addOnTimeFlag (p : Params) (df : DF) : DF :=
  if df.hasDepDelay then
    { df with
      hasOnTime := true
      rows := df.rows.map fun r =>
        { r with
          onTime := some (match r.depDelay with
            | some d => decide (d ≤ p.delay_threshold)
            | none => false) } }
  else df

/-! ## Raw-table normalization (`data_processor.py`, `transform_data`)

The structural normalization stage: dropping all-empty rows, header
detection, repeated-header removal, column renaming, and empty-column
removal (`transform_data` before the datetime/delay/feature steps).
A raw cell is `Option String` (`none` = NaN); numeric cells, which the
claims never exercise, are represented by their string rendering. -/

/-- A raw cell. -/
abbrev Cell := Option String

/-- A raw positional table (`pd.read_excel(..., header=None)`). -/
abbrev RawTable := List (List Cell)

/-- A table after normalization: header names plus data rows. -/
structure NamedTable where
  names : List String
  rows : List (List Cell)
  deriving DecidableEq

/-- `df.dropna(how='all')` on rows: keep rows with at least one value. -/
def dropAllNaRows (t : RawTable) : RawTable :=
  t.filter fun r => r.any (·.isSome)

/-- The string pandas renders for a cell under `.astype(str)`
(NaN becomes `"nan"`). -/
def cellStr (c : Cell) : String := c.getD "nan"

/-- `_find_header_row`: the first of the first 10 rows containing a cell
whose string form contains `"Flight Number"` case-insensitively; row 0
when none matches. -/
def findHeaderRow (t : RawTable) : ℕ :=
  match (List.range (min 10 t.length)).find?
      (fun i => (t.getD i []).any fun c => containsCI (cellStr c) "Flight Number") with
  | some i => i
  | none => 0

/-- Header names: the header row with NaN replaced by `""`
(`df.iloc[header_row].fillna('').tolist()`). -/
def headerNames (t : RawTable) (h : ℕ) : List String :=
  (t.getD h []).map fun c => c.getD ""

/-- `cleaned_df[cleaned_df['Flight Number'] != 'Flight Number']`: drop data
rows whose cell under the first column labelled `Flight Number` equals the
literal header label (`NaN != label` is `True`, so such rows are kept).
Raises `KeyError` when no column carries that label.  (With several columns
so labelled — renaming has not happened yet — pandas label selection returns
a sub-frame and the filter is not meaningful; the embedding uses the first
occurrence.  No claim exercises that case.) -/
def dropRepeatedHeaders (names : List String) (rows : List (List Cell)) :
    Except String (List (List Cell)) :=
  match firstIdx "Flight Number" names with
  | none => .error "KeyError: Flight Number"
  | some j => .ok (rows.filter fun r => !(r.getD j none == some "Flight Number"))

/-- The renaming loop of `_clean_columns`: `seen` maps a name to the number
of occurrences already processed minus one; a first occurrence keeps its
name unless blank (then `date_col_<position>`); a repeated occurrence gets
the running counter appended (`<name><k>`, or `unnamed<k>` when blank). -/
def cleanNamesGo (seen : List (String × ℕ)) (i : ℕ) : List String → List String
  | [] => []
  | n :: rest =>
    match seen.lookup n with
    | some c =>
      (if n ≠ "" then n ++ toString (c + 1) else "unnamed" ++ toString (c + 1)) ::
        cleanNamesGo ((n, c + 1) :: seen) (i + 1) rest
    | none =>
      (if n = "" then "date_col_" ++ toString i else n) ::
        cleanNamesGo ((n, 0) :: seen) (i + 1) rest

/-- Column renaming of `_clean_columns`. -/
def cleanColumnsNames (names : List String) : List String :=
  cleanNamesGo [] 0 names

/-- `df.dropna(axis=1, how='all')`: keep columns holding at least one value
in some data row; returns the surviving names and the rows restricted to
the surviving column positions. -/
def dropEmptyCols (names : List String) (rows : List (List Cell)) :
    List String × List (List Cell) :=
  let keep := (List.range names.length).filter fun j =>
    rows.any fun r => (r.getD j none).isSome
  (keep.map fun j => names.getD j "",
   rows.map fun r => keep.map fun j => r.getD j none)

/-- The structural normalization stage of `transform_data`
(lines 33–48: row dropna, header detection and extraction, repeated-header
removal, column renaming, empty-column removal — before the datetime,
delay and derived-feature steps). -/
def normalizeTable (t : RawTable) : Except String NamedTable :=
  let t1 := dropAllNaRows t
  let h := findHeaderRow t1
  let names := headerNames t1 h
  let data := t1.drop (h + 1)
  match dropRepeatedHeaders names data with
  | .error e => .error e
  | .ok data2 =>
    let names2 := cleanColumnsNames names
    let nr := dropEmptyCols names2 data2
    .ok ⟨nr.1, nr.2⟩

/-- A normalized table re-serialized as a raw table: the header names as
the first row, then the data rows. -/
def toRaw (nt : NamedTable) : RawTable :=
  (nt.names.map some) :: nt.rows

/-! ## FlightAnalyzer (`analyzer.py`)

Each sub-computation returns its result as an `Option` (`none` = the empty
mapping `{}` the source returns when a guarded column is missing) inside
`Except` where the source can raise on an unguarded column access. -/

/-- `_calculate_basic_stats`. -/
structure BasicStats where
  totalFlights : ℕ
  uniqueAirlines : ℕ
  dateRangeStart : Option ℤ
  dateRangeEnd : Option ℤ
  avgDailyFlights : ℚ
  deriving DecidableEq

/-- `_calculate_basic_stats`: record count, distinct non-null airline count
(0 when the column is absent), min/max resolved date (`None` when the
column is absent or entirely NaT), and total / distinct-date count. -/
def basicStats (df : DF) : BasicStats :=
  let dates := df.rows.filterMap (·.date)
  let hasDates := df.hasDate && !dates.isEmpty
  { totalFlights := df.rows.length
    uniqueAirlines :=
      if df.hasAirline then (firsts (df.rows.filterMap (·.airline))).length else 0
    dateRangeStart := if hasDates then dates.min? else none
    dateRangeEnd := if hasDates then dates.max? else none
    avgDailyFlights :=
      if hasDates then (df.rows.length : ℚ) / (firsts dates).length else 0 }

/-- One row of the per-hour groupby of `_analyze_peak_times`
(`df.groupby('Departure Hour').agg(...)`, rounded to 2 decimals).
`flightCount` counts non-null flight numbers; `avgDelay` is the rounded
mean of the present delays (`none` = NaN when no delay is present);
`stdPresent` records whether the delay standard deviation is non-NaN
(at least two present delays) — its numeric value is an irrational square
root never referenced by a claim; `congestion` is
`Flight Count * Avg Delay.fillna(0)`. -/
structure HourStat where
  hour : ℕ
  flightCount : ℕ
  avgDelay : Option ℚ
  stdPresent : Bool
  congestion : ℚ
  deriving DecidableEq

/-- `_analyze_peak_times` result. -/
structure PeakStats where
  hourlyStats : List HourStat
  peakHours : List HourStat
  busiestHour : ℕ
  mostCongestedHour : ℕ
  deriving DecidableEq

/-- Sort relation: descending flight count (pandas `nlargest`, which keeps
first occurrences on ties). -/
def countGe (a b : HourStat) : Prop := b.flightCount ≤ a.flightCount

instance : DecidableRel countGe := fun _ _ => Nat.decLe _ _

instance : IsTotal HourStat countGe := ⟨fun a b => Nat.le_total b.flightCount a.flightCount⟩

instance : IsTrans HourStat countGe := ⟨fun _ _ _ h1 h2 => Nat.le_trans h2 h1⟩

/-- The per-hour statistics of one hour group. -/
def mkHourStat (group : List Row) (h : ℕ) : HourStat :=
  let delays := group.filterMap (·.depDelay)
  let avg := (listMean delays).map round2
  { hour := h
    flightCount := (group.filterMap (·.flightNumber)).length
    avgDelay := avg
    stdPresent := decide (2 ≤ delays.length)
    congestion := ((group.filterMap (·.flightNumber)).length : ℚ) * (avg.getD 0) }

/-- `_analyze_peak_times`.  Returns `{}` when `Departure Hour` is absent;
otherwise the groupby aggregation accesses `Flight Number` and
`Departure Delay (min)` unconditionally, raising `KeyError` when either is
missing.  Rows with a NaN hour are dropped by the groupby; group keys come
out ascending.  `idxmax` on the empty grouped frame raises.  (`idxmax` over
a present but entirely-NaN `Avg Delay`/`Delay Std` column is pandas-version
dependent and not modelled; no claim depends on it.) -/
def peakAnalysis (df : DF) : Except String (Option PeakStats) :=
  if !df.hasDepHour then .ok none
  else if !df.hasFlightNumber then .error "KeyError: Flight Number"
  else if !df.hasDepDelay then .error "KeyError: Departure Delay (min)"
  else
    let hours := (firsts (df.rows.filterMap (·.depHour))).insertionSort (· ≤ ·)
    let stats := hours.map fun h =>
      mkHourStat (df.rows.filter fun r => r.depHour == some h) h
    if stats.isEmpty then .error "ValueError: attempt to get argmax of an empty sequence"
    else
      .ok (some
        { hourlyStats := stats
          peakHours := (stats.insertionSort countGe).take 5
          busiestHour :=
            (firstArgmax (fun s => (s.flightCount : ℚ)) stats).elim 0 (·.hour)
          mostCongestedHour :=
            (firstArgmax (·.congestion) stats).elim 0 (·.hour) })

/-- Per-column statistics of `_analyze_delays` (over the non-null values of
one delay column; only built when at least one value is present).
`varSample` carries the squared `std` (see `sampleVar`). -/
structure DelayColStats where
  mean : ℚ
  median : ℚ
  varSample : Option ℚ
  p25 : ℚ
  p75 : ℚ
  p95 : ℚ
  onTimeRate : ℚ
  deriving DecidableEq

/-- `_analyze_delays` result.  `depStats`/`arrStats` is `none` when the
column is absent or has no present value (the source then omits the key).
`dailyPatterns` mirrors the `daily_patterns` groupby of the first delay
column by day of week (keys ascending, values possibly NaN). -/
structure DelayAnalysis where
  depStats : Option DelayColStats
  arrStats : Option DelayColStats
  dailyPatterns : Option (List (String × Option ℚ))
  deriving DecidableEq

/-- Statistics of one delay column's non-null values. -/
def mkDelayColStats (p : Params) (vals : List ℚ) : Option DelayColStats :=
  if vals.isEmpty then none
  else
    let sorted := vals.insertionSort (· ≤ ·)
    some
      { mean := vals.sum / vals.length
        median := quantileSorted sorted (1/2)
        varSample := sampleVar vals
        p25 := quantileSorted sorted (1/4)
        p75 := quantileSorted sorted (3/4)
        p95 := quantileSorted sorted (19/20)
        onTimeRate :=
          ((vals.filter (fun v => v ≤ p.delay_threshold)).length : ℚ) / vals.length }

/-- The delay columns present in the frame, in frame order
(`[col for col in df.columns if 'Delay' in col and 'min' in col]`:
`Departure Delay (min)` is created before `Arrival Delay (min)`). -/
def delayCols (df : DF) : List Bool :=
  (if df.hasDepDelay then [true] else []) ++ (if df.hasArrDelay then [false] else [])

/-- `_analyze_delays`: `{}` when no delay column exists; otherwise per-column
distribution statistics, plus the day-of-week mean of the first delay column
when `Day of Week` exists. -/
def delayAnalysis (p : Params) (df : DF) : Option DelayAnalysis :=
  if (delayCols df).isEmpty then none
  else
    some
      { depStats :=
          if df.hasDepDelay then mkDelayColStats p (df.rows.filterMap (·.depDelay))
          else none
        arrStats :=
          if df.hasArrDelay then mkDelayColStats p (df.rows.filterMap (·.arrDelay))
          else none
        dailyPatterns :=
          if df.hasDayOfWeek then
            some (((firsts (df.rows.filterMap (·.dayOfWeek))).insertionSort (· ≤ ·)).map
              fun d =>
                (d, listMean (((df.rows.filter fun r => r.dayOfWeek == some d).map
                      (fun r => if df.hasDepDelay then r.depDelay else r.arrDelay)).reduceOption)))
          else none }

/-- `_calculate_efficiency_metrics` result: each key is present (outer
`some`) exactly when its guarding columns exist; an inner `none` is a NaN
value (empty mean / zero-length division, which numpy turns into NaN, not
an error). -/
structure EfficiencyMetrics where
  onTimePerformance : Option (Option ℚ)
  severeDelayRate : Option (Option ℚ)
  airlinePerformance : Option (List (String × Option ℚ))
  deriving DecidableEq

/-- `_calculate_efficiency_metrics`. -/
def efficiencyMetrics (df : DF) : EfficiencyMetrics :=
  { onTimePerformance :=
      if df.hasOnTime then
        some (listMean ((df.rows.filterMap (·.onTime)).map fun b => if b then (1 : ℚ) else 0))
      else none
    severeDelayRate :=
      if df.hasDepDelay then
        some (if df.rows.isEmpty then none
          else some (((df.rows.filter fun r => decide ((r.depDelay.getD 0) > 30)
                        && r.depDelay.isSome).length : ℚ) / df.rows.length))
      else none
    airlinePerformance :=
      if df.hasAirline && df.hasOnTime then
        some (((firsts (df.rows.filterMap (·.airline))).insertionSort (· ≤ ·)).map fun a =>
          (a, listMean (((df.rows.filter fun r => r.airline == some a).filterMap
                (·.onTime)).map fun b => if b then (1 : ℚ) else 0)))
      else none }

/-- The `delay_reduction_scenario` of `_run_simulations`.  `none` values are
NaN (an empty mean propagates: `nan != 0` is `True` in Python, so the
percent branch still computes NaN rather than 0). -/
structure DelayReductionScenario where
  reductionMinutes : ℚ
  currentAvgDelay : Option ℚ
  simulatedAvgDelay : Option ℚ
  improvement : Option ℚ
  percentImprovement : Option ℚ
  deriving DecidableEq

/-- The simulated per-row delays:
`(df['Departure Delay (min)'] - reduction).clip(lower=-15)`
(NaN stays NaN). -/
def simulatedDelays (p : Params) (df : DF) : List (Option ℚ) :=
  df.rows.map fun r =>
    r.depDelay.map fun d => max (d - p.simulation_delay_reduction) (-15)

/-- `_run_simulations`: `{}` when `Departure Delay (min)` is absent. -/
def runSimulations (p : Params) (df : DF) : Option DelayReductionScenario :=
  if !df.hasDepDelay then none
  else
    let cur := listMean (df.rows.filterMap (·.depDelay))
    let sim := listMean ((simulatedDelays p df).reduceOption)
    let imp :=
      match cur, sim with
      | some c, some s => some (c - s)
      | _, _ => none
    some
      { reductionMinutes := p.simulation_delay_reduction
        currentAvgDelay := cur
        simulatedAvgDelay := sim
        improvement := imp
        percentImprovement :=
          match cur with
          | some c => if c ≠ 0 then imp.map fun i => i / c * 100 else some 0
          | none => none }

/-- One cascade attribution of `_analyze_cascading_impact`. -/
structure CascadeImpact where
  flight : Option String
  cascadeDelay : ℚ
  originalDelay : Option ℚ
  deriving DecidableEq

/-- `_analyze_cascading_impact` result. -/
structure CascadeResult where
  affectedFlights : ℕ
  avgCascadeImpact : ℚ
  totalCascadeMinutes : ℚ
  deriving DecidableEq

/-- Sort relation of `sort_values('STD_dt')`: ascending timestamps with
NaT placed last (`na_position='last'`). -/
def stdRel (a b : Row) : Prop :=
  match a.stdDt, b.stdDt with
  | some x, some y => x ≤ y
  | some _, none => True
  | none, some _ => False
  | none, none => True

instance : DecidableRel stdRel := fun a b => by
  unfold stdRel
  cases a.stdDt <;> cases b.stdDt <;> infer_instance

instance : IsTotal Row stdRel :=
  ⟨fun a b => by
    unfold stdRel
    cases a.stdDt <;> cases b.stdDt <;> simp [le_total]⟩

instance : IsTrans Row stdRel :=
  ⟨fun a b c => by
    unfold stdRel
    cases a.stdDt <;> cases b.stdDt <;> cases c.stdDt <;> simp
    exact le_trans⟩

/-- The consecutive-pair scan inside one airline group: for each adjacent
pair (previous, current) of the sorted group, when the previous row's delay
is present and exceeds 15 minutes an impact is recorded against the current
row, of `previous delay × cascade_factor`. -/
def pairImpacts (factor : ℚ) (l : List Row) : List CascadeImpact :=
  (l.zip l.tail).filterMap fun pc =>
    match pc.1.depDelay with
    | some d =>
      if 15 < d then some ⟨pc.2.flightNumber, d * factor, pc.2.depDelay⟩ else none
    | none => none

/-- The impact list over all airline groups (first-appearance order of
`df['Airline'].dropna().unique()`); a group contributes only when the
`STD_dt` column exists and the group has more than one row. -/
def cascadeImpacts (p : Params) (df : DF) : List CascadeImpact :=
  (firsts (df.rows.filterMap (·.airline))).flatMap fun a =>
    let flights := df.rows.filter fun r => r.airline == some a
    if df.hasSTDdt && flights.length > 1 then
      pairImpacts p.cascade_factor (flights.insertionSort stdRel)
    else []

/-- `_analyze_cascading_impact`: `{}` when `Airline` or
`Departure Delay (min)` is absent; `KeyError` when an impact is built while
`Flight Number` is absent (line 167 reads it unconditionally); otherwise
the count, mean (0 when none) and sum of the recorded cascade delays. -/
def cascadeAnalysis (p : Params) (df : DF) : Except String (Option CascadeResult) :=
  if !df.hasAirline || !df.hasDepDelay then .ok none
  else
    let impacts := cascadeImpacts p df
    if !impacts.isEmpty && !df.hasFlightNumber then .error "KeyError: Flight Number"
    else
      .ok (some
        { affectedFlights := impacts.length
          avgCascadeImpact :=
            if impacts.isEmpty then 0
            else (impacts.map (·.cascadeDelay)).sum / impacts.length
          totalCascadeMinutes := (impacts.map (·.cascadeDelay)).sum })

/-- The heterogeneous value of one `run_analysis` result key. -/
inductive SubResult where
  | basic : BasicStats → SubResult
  | peak : Option PeakStats → SubResult
  | delays : Option DelayAnalysis → SubResult
  | efficiency : EfficiencyMetrics → SubResult
  | simulation : Option DelayReductionScenario → SubResult
  | cascade : Option CascadeResult → SubResult
  deriving DecidableEq

/-- `run_analysis`: the six sub-results in insertion order.  A `KeyError`
raised by a sub-computation propagates (the peak analysis runs before the
cascade analysis). -/
def runAnalysis (p : Params) (df : DF) : Except String (List (String × SubResult)) :=
  match peakAnalysis df with
  | .error e => .error e
  | .ok pk =>
    match cascadeAnalysis p df with
    | .error e => .error e
    | .ok cs =>
      .ok [("basic_stats", .basic (basicStats df)),
           ("peak_analysis", .peak pk),
           ("delay_analysis", .delays (delayAnalysis p df)),
           ("efficiency_metrics", .efficiency (efficiencyMetrics df)),
           ("simulation", .simulation (runSimulations p df)),
           ("cascade_analysis", .cascade cs)]

/-! ## Generic lemmas about the utilities -/

theorem mem_firsts {α : Type} [DecidableEq α] {a : α} {l : List α} :
    a ∈ firsts l ↔ a ∈ l := by
  induction l with
  | nil => simp [firsts]
  | cons x xs ih =>
    by_cases hax : a = x
    · simp [firsts, hax]
    · simp [firsts, hax, List.mem_filter, ih]

theorem firsts_nodup {α : Type} [DecidableEq α] (l : List α) : (firsts l).Nodup := by
  induction l with
  | nil => simp [firsts]
  | cons x xs ih =>
    refine List.nodup_cons.mpr ⟨?_, ih.filter _⟩
    intro hx
    have := (List.mem_filter.mp hx).2
    simp at this

theorem firstArgmax_isSome {α : Type} (f : α → ℚ) (l : List α) (h : l ≠ []) :
    (firstArgmax f l).isSome := by
  cases l with
  | nil => exact absurd rfl h
  | cons x xs =>
    simp only [firstArgmax]
    cases firstArgmax f xs
    · simp
    · simp only []
      split <;> simp

theorem firstArgmax_spec {α : Type} (f : α → ℚ) :
    ∀ (l : List α) (a : α), firstArgmax f l = some a →
      a ∈ l ∧ (∀ b ∈ l, f b ≤ f a) ∧
        ∃ l₁ l₂, l = l₁ ++ a :: l₂ ∧ ∀ b ∈ l₁, f b < f a := by
  intro l
  induction l with
  | nil => intro a h; simp [firstArgmax] at h
  | cons x xs ih =>
    intro a h
    match hxs : firstArgmax f xs with
    | none =>
      have hnil : xs = [] := by
        cases hx : xs with
        | nil => rfl
        | cons y ys =>
          exfalso
          have := firstArgmax_isSome f xs (by rw [hx]; simp)
          rw [hxs] at this
          simp at this
      subst hnil
      simp only [firstArgmax] at h
      cases h
      exact ⟨List.mem_singleton.mpr rfl, by simp, [], [], rfl, by simp⟩
    | some y =>
      obtain ⟨hymem, hymax, l₁, l₂, hsplit, hfirst⟩ := ih y hxs
      simp only [firstArgmax, hxs] at h
      by_cases hlt : f x < f y
      · rw [if_pos hlt] at h
        cases h
        refine ⟨List.mem_cons_of_mem _ hymem, ?_, x :: l₁, l₂,
          by rw [hsplit, List.cons_append], ?_⟩
        · intro b hb
          rcases List.mem_cons.mp hb with hbx | hbxs
          · exact hbx ▸ le_of_lt hlt
          · exact hymax b hbxs
        · intro b hb
          rcases List.mem_cons.mp hb with hbx | hbl₁
          · exact hbx ▸ hlt
          · exact hfirst b hbl₁
      · rw [if_neg hlt] at h
        cases h
        refine ⟨List.mem_cons_self _ _, ?_, [], xs, rfl, by simp⟩
        intro b hb
        rcases List.mem_cons.mp hb with hbx | hbxs
        · exact hbx ▸ le_refl _
        · exact le_trans (hymax b hbxs) (le_of_not_lt hlt)

theorem getD_range_map {α : Type} (d : α) (l : List α) :
    (List.range l.length).map (fun j => l.getD j d) = l := by
  induction l with
  | nil => simp
  | cons x xs ih =>
    rw [List.length_cons, List.range_succ_eq_map, List.map_cons, List.map_map]
    refine congrArg₂ (· :: ·) (by simp) ?_
    rw [show ((fun j => (x :: xs).getD j d) ∘ Nat.succ) = fun j => xs.getD j d from
      funext fun j => by simp [List.getD], ih]

theorem getD_map_lt {α β : Type} (f : α → β) (l : List α) (i : ℕ) (h : i < l.length)
    (d : α) (e : β) : (l.map f).getD i e = f (l.getD i d) := by
  rw [List.getD_eq_getElem?_getD, List.getD_eq_getElem?_getD, List.getElem?_map,
    List.getElem?_eq_getElem h]
  rfl

theorem firstIdx_isSome_of_mem {s : String} {l : List String} (h : s ∈ l) :
    ∃ j, firstIdx s l = some j := by
  induction l with
  | nil => simp at h
  | cons n ns ih =>
    by_cases hns : n = s
    · exact ⟨0, by simp [firstIdx, hns]⟩
    · rcases List.mem_cons.mp h with h1 | h2
      · exact absurd h1.symm hns
      · obtain ⟨j, hj⟩ := ih h2
        exact ⟨j + 1, by simp [firstIdx, hns, hj]⟩

theorem mem_pairImpacts_iff {factor : ℚ} {l : List Row} {x : CascadeImpact} :
    x ∈ pairImpacts factor l ↔
      ∃ (i : ℕ) (h : i + 1 < l.length) (d : ℚ),
        (l.get ⟨i, Nat.lt_of_succ_lt h⟩).depDelay = some d ∧ 15 < d ∧
        x = ⟨(l.get ⟨i + 1, h⟩).flightNumber, d * factor, (l.get ⟨i + 1, h⟩).depDelay⟩ := by
  unfold pairImpacts
  rw [List.mem_filterMap]
  constructor
  · rintro ⟨⟨p, c⟩, hmem, hf⟩
    obtain ⟨i, hi, hgi⟩ := List.mem_iff_getElem.mp hmem
    have hi' : i + 1 < l.length := by
      have := hi
      rw [List.length_zip, List.length_tail] at this
      omega
    have hp : p = l.get ⟨i, Nat.lt_of_succ_lt hi'⟩ ∧ c = l.get ⟨i + 1, hi'⟩ := by
      have hz := hgi
      rw [List.getElem_zip] at hz
      have h1 : p = l.get ⟨i, Nat.lt_of_succ_lt hi'⟩ := by
        have := congrArg Prod.fst hz
        simpa using this.symm
      have h2 : c = l.get ⟨i + 1, hi'⟩ := by
        have := congrArg Prod.snd hz
        simp only [List.getElem_tail] at this
        simpa using this.symm
      exact ⟨h1, h2⟩
    rcases hp with ⟨hp1, hp2⟩
    cases hd : p.depDelay with
    | none => rw [hd] at hf; simp at hf
    | some d =>
      rw [hd] at hf
      by_cases h15 : 15 < d
      · simp only [h15, if_true] at hf
        refine ⟨i, hi', d, ?_, h15, ?_⟩
        · rw [← hp1]; exact hd
        · rw [← hp2]
          have := (Option.some.inj hf).symm
          simpa using this
      · simp [h15] at hf
  · rintro ⟨i, h, d, hd, h15, hx⟩
    refine ⟨(l.get ⟨i, Nat.lt_of_succ_lt h⟩, l.get ⟨i + 1, h⟩), ?_, ?_⟩
    · rw [List.mem_iff_getElem]
      refine ⟨i, ?_, ?_⟩
      · rw [List.length_zip, List.length_tail]; omega
      · rw [List.getElem_zip]
        refine Prod.ext (by simp) ?_
        simp [List.getElem_tail]
    · simp only [hd, if_pos h15, hx]

/-! ## Lemmas about column renaming -/

theorem cleanNamesGo_length (names : List String) :
    ∀ (seen : List (String × ℕ)) (i : ℕ), (cleanNamesGo seen i names).length = names.length := by
  induction names with
  | nil => intro seen i; rfl
  | cons n rest ih =>
    intro seen i
    simp only [cleanNamesGo]
    cases seen.lookup n <;> simp [ih]

theorem cleanNamesGo_id (names : List String) :
    ∀ (seen : List (String × ℕ)) (i : ℕ), names.Nodup → "" ∉ names →
      (∀ n ∈ names, seen.lookup n = none) → cleanNamesGo seen i names = names := by
  induction names with
  | nil => intro seen i _ _ _; rfl
  | cons n rest ih =>
    intro seen i hnd hnb hseen
    have hln : seen.lookup n = none := hseen n (List.mem_cons_self _ _)
    have hnb' : n ≠ "" := fun h => hnb (h ▸ List.mem_cons_self _ _)
    simp only [cleanNamesGo, hln, if_neg hnb']
    congr 1
    refine ih ((n, 0) :: seen) (i + 1) (List.nodup_cons.mp hnd).2
      (fun h => hnb (List.mem_cons_of_mem _ h)) ?_
    intro m hm
    have hmn : m ≠ n := fun he => (List.nodup_cons.mp hnd).1 (he ▸ hm)
    have hbe : (m == n) = false := beq_eq_false_iff_ne.mpr hmn
    simp [List.lookup_cons, hseen m (List.mem_cons_of_mem _ hm), hbe]

/-- The renamed column at position `i`, described directly by the number of
earlier occurrences of the same header name (the behaviour `_clean_columns`
implements with its `seen` counter dictionary). -/
def cleanNameAt (names : List String) (i : ℕ) : String :=
  let n := names.getD i ""
  let k := (names.take i).count n
  if k = 0 then (if n = "" then "date_col_" ++ toString i else n)
  else (if n = "" then "unnamed" ++ toString k else n ++ toString k)

theorem getD_append_cons {α : Type} (pre l : List α) (x : α) (d : α) :
    (pre ++ x :: l).getD pre.length d = x := by
  induction pre with
  | nil => rfl
  | cons p ps ih => simpa using ih

theorem cleanNamesGo_getD (rest : List String) :
    ∀ (pre : List String) (seen : List (String × ℕ)),
      (∀ n : String, seen.lookup n =
        if pre.count n = 0 then none else some (pre.count n - 1)) →
      ∀ j, j < rest.length →
        (cleanNamesGo seen pre.length rest).getD j "" =
          cleanNameAt (pre ++ rest) (pre.length + j) := by
  induction rest with
  | nil => intro pre seen _ j hj; simp at hj
  | cons n rest ih =>
    intro pre seen hinv j hj
    cases j with
    | zero =>
      have htake : (pre ++ n :: rest).take pre.length = pre := List.take_left _ _
      have hget : (pre ++ n :: rest).getD pre.length "" = n := getD_append_cons _ _ _ _
      cases hc : pre.count n with
      | zero =>
        have hln : seen.lookup n = none := by rw [hinv n, hc]; simp
        simp only [cleanNamesGo, hln, Nat.add_zero]
        rw [List.getD_cons_zero]
        simp only [cleanNameAt]
        rw [hget, htake, hc]
        simp
      | succ c =>
        have hln : seen.lookup n = some c := by rw [hinv n, hc]; simp
        simp only [cleanNamesGo, hln, Nat.add_zero]
        rw [List.getD_cons_zero]
        simp only [cleanNameAt]
        rw [hget, htake, hc]
        by_cases hne : n = ""
        · simp [hne]
        · simp [hne]
    | succ j =>
      have hstep : ∀ c', (∀ m : String, ((n, c') :: seen).lookup m =
            if (pre ++ [n]).count m = 0 then none
            else some ((pre ++ [n]).count m - 1)) →
          (cleanNamesGo ((n, c') :: seen) (pre.length + 1) rest).getD j "" =
            cleanNameAt (pre ++ n :: rest) (pre.length + (j + 1)) := by
        intro c' hinv'
        have := ih (pre ++ [n]) ((n, c') :: seen) hinv' j (by simpa using hj)
        rw [List.length_append, List.length_cons, List.length_nil] at this
        rw [List.append_assoc] at this
        simpa [Nat.add_assoc, Nat.add_comm 1 j] using this
      have hinvStep : ∀ c', c' + 1 = pre.count n + 1 →
          ∀ m : String, ((n, c') :: seen).lookup m =
            if (pre ++ [n]).count m = 0 then none
            else some ((pre ++ [n]).count m - 1) := by
        intro c' hc' m
        by_cases hmn : m = n
        · subst hmn
          have h1 : ((m, c') :: seen).lookup m = some c' := by
            simp [List.lookup_cons]
          have h2 : (pre ++ [m]).count m = pre.count m + 1 := by
            simp [List.count_append]
          rw [h1, h2]
          rw [if_neg (Nat.succ_ne_zero _)]
          have hc'' : c' = pre.count m := by omega
          rw [hc'']
          simp
        · have hbe : (m == n) = false := beq_eq_false_iff_ne.mpr hmn
          have h1 : ((n, c') :: seen).lookup m = seen.lookup m := by
            simp [List.lookup_cons, hbe]
          have h2 : (pre ++ [n]).count m = pre.count m := by
            have : ([n] : List String).count m = 0 := by
              simp [List.count_singleton]
              exact fun he => hmn he.symm
            simp [List.count_append, this]
          rw [h1, h2, hinv m]
      cases hc : pre.count n with
      | zero =>
        have hln : seen.lookup n = none := by rw [hinv n, hc]; simp
        simp only [cleanNamesGo, hln]
        rw [List.getD_cons_succ]
        exact hstep 0 (hinvStep 0 (by omega))
      | succ c =>
        have hln : seen.lookup n = some c := by rw [hinv n, hc]; simp
        simp only [cleanNamesGo, hln]
        rw [List.getD_cons_succ]
        exact hstep (c + 1) (hinvStep (c + 1) (by omega))

/-! ## Concrete frames used by examples, witnesses and counterexamples -/

/-- Spec §8 cascade example: airline `AB`, three flights in departure order
with delays 20, 5, 30 minutes. -/
def exDFC1 : DF :=
  { hasFlightNumber := true, hasAirline := true, hasSTDdt := true, hasDepDelay := true,
    rows :=
      [{ flightNumber := some "AB1", airline := some "AB", stdDt := some 0,
         depDelay := some 20 },
       { flightNumber := some "AB2", airline := some "AB", stdDt := some 3600,
         depDelay := some 5 },
       { flightNumber := some "AB3", airline := some "AB", stdDt := some 7200,
         depDelay := some 30 }] }

/-- Spec §8 what-if example: delay values 20, 2, −20. -/
def exDFC4 : DF :=
  { hasDepDelay := true,
    rows := [{ depDelay := some 20 }, { depDelay := some 2 }, { depDelay := some (-20) }] }

/-- A frame with timestamps 15 minutes (900 seconds) apart. -/
def dfC2rt : DF :=
  { hasSTDdt := true, hasATDdt := true,
    rows := [{ stdDt := some 0, atdDt := some 900 }] }

/-- The empty frame (no columns, no rows). -/
def dfEmpty : DF := { rows := [] }

/-- The `run_analysis` result on the empty frame. -/
def emptyResList : List (String × SubResult) :=
  [("basic_stats", .basic ⟨0, 0, none, none, 0⟩),
   ("peak_analysis", .peak none),
   ("delay_analysis", .delays none),
   ("efficiency_metrics", .efficiency ⟨none, none, none⟩),
   ("simulation", .simulation none),
   ("cascade_analysis", .cascade none)]

/-! ## Claim C10 -/

/-- C10: whenever `run_analysis` returns normally, the result is a mapping
with exactly the six keys `basic_stats`, `peak_analysis`, `delay_analysis`,
`efficiency_metrics`, `simulation`, `cascade_analysis`, in that order, each
always present (possibly as an empty mapping), and no other keys. -/
theorem runAnalysis_keys (p : Params) (df : DF) (res : List (String × SubResult))
    (h : runAnalysis p df = .ok res) :
    res.map Prod.fst =
      ["basic_stats", "peak_analysis", "delay_analysis", "efficiency_metrics",
       "simulation", "cascade_analysis"] := by
  unfold runAnalysis at h
  cases hpk : peakAnalysis df with
  | error e => rw [hpk] at h; simp at h
  | ok pk =>
    rw [hpk] at h
    cases hcs : cascadeAnalysis p df with
    | error e => rw [hcs] at h; simp at h
    | ok cs =>
      rw [hcs] at h
      injection h with h
      rw [← h]
      rfl

/-- Witness for C10: the empty frame analyses normally and carries the six
keys. -/
theorem runAnalysis_keys_witness :
    runAnalysis defaultParams dfEmpty = .ok emptyResList ∧
      emptyResList.map Prod.fst =
        ["basic_stats", "peak_analysis", "delay_analysis", "efficiency_metrics",
         "simulation", "cascade_analysis"] :=
  ⟨rfl, runAnalysis_keys defaultParams dfEmpty emptyResList rfl⟩

/-! ## Claim C2 -/

/-- C2: a record's `departure_delay_minutes` is present iff both
`scheduled_departure` (`STD_dt`) and `actual_departure` (`ATD_dt`) are
present, and then equals their signed difference in minutes exactly, with
no clamping or rounding; `arrival_delay_minutes` is symmetric in the
arrival timestamps; and (round trip) timestamps 900 seconds apart give
delay `15.0`.  At the frame level the delay column itself is created iff
both timestamp columns exist. -/
theorem delay_present_iff (df : DF)
    (h1 : df.hasDepDelay = false) (h2 : df.hasArrDelay = false) :
    ((calculateDelays df).hasDepDelay = (df.hasSTDdt && df.hasATDdt)) ∧
    ((calculateDelays df).hasArrDelay = (df.hasSTAdt && df.hasATAdt)) ∧
    ((calculateDelays df).rows.length = df.rows.length) ∧
    (df.hasSTDdt = true → df.hasATDdt = true →
      ∀ i, i < df.rows.length →
        ((((calculateDelays df).rows.getD i default).depDelay.isSome ↔
          ((df.rows.getD i default).stdDt.isSome ∧ (df.rows.getD i default).atdDt.isSome)) ∧
        (∀ s a, (df.rows.getD i default).stdDt = some s →
          (df.rows.getD i default).atdDt = some a →
          ((calculateDelays df).rows.getD i default).depDelay = some ((a - s) / 60)))) ∧
    (df.hasSTAdt = true → df.hasATAdt = true →
      ∀ i, i < df.rows.length →
        ((((calculateDelays df).rows.getD i default).arrDelay.isSome ↔
          ((df.rows.getD i default).staDt.isSome ∧ (df.rows.getD i default).ataDt.isSome)) ∧
        (∀ s a, (df.rows.getD i default).staDt = some s →
          (df.rows.getD i default).ataDt = some a →
          ((calculateDelays df).rows.getD i default).arrDelay = some ((a - s) / 60)))) ∧
    (((calculateDelays dfC2rt).rows.getD 0 default).depDelay = some 15) := by
  have hrt : ((calculateDelays dfC2rt).rows.getD 0 default).depDelay = some 15 := by
    norm_num [calculateDelays, calcDepDelay, calcArrDelay, dfC2rt]
  cases hdep : df.hasSTDdt && df.hasATDdt with
  | true =>
    have hrows1 : (calcDepDelay df).rows = df.rows.map (fun r =>
        { r with depDelay := r.atdDt.bind fun a => r.stdDt.map fun s => (a - s) / 60 }) := by
      simp [calcDepDelay, hdep]
    have hflags1 : (calcDepDelay df).hasSTAdt = df.hasSTAdt ∧
        (calcDepDelay df).hasATAdt = df.hasATAdt ∧ (calcDepDelay df).hasDepDelay = true ∧
        (calcDepDelay df).hasArrDelay = df.hasArrDelay := by
      simp [calcDepDelay, hdep]
    cases harr : df.hasSTAdt && df.hasATAdt with
    | true =>
      have hc : calculateDelays df = { calcDepDelay df with
          hasArrDelay := true
          rows := (calcDepDelay df).rows.map fun r =>
            { r with arrDelay := r.ataDt.bind fun a => r.staDt.map fun s => (a - s) / 60 } } := by
        rw [calculateDelays, calcArrDelay, if_pos]
        rw [hflags1.1, hflags1.2.1, harr]
      have hget : ∀ i, i < df.rows.length →
          ((calculateDelays df).rows.getD i default) =
            { df.rows.getD i default with
              depDelay := (df.rows.getD i default).atdDt.bind fun a =>
                (df.rows.getD i default).stdDt.map fun s => (a - s) / 60
              arrDelay := (df.rows.getD i default).ataDt.bind fun a =>
                (df.rows.getD i default).staDt.map fun s => (a - s) / 60 } := by
        intro i hi
        have hlen1 : i < (calcDepDelay df).rows.length := by
          rw [hrows1, List.length_map]; exact hi
        rw [hc]
        show ((calcDepDelay df).rows.map _).getD i default = _
        rw [getD_map_lt _ _ i hlen1 default, hrows1, getD_map_lt _ _ i hi default]
      refine ⟨?_, ?_, ?_, ?_, ?_, hrt⟩
      · rw [hc]
        show (calcDepDelay df).hasDepDelay = _
        rw [hflags1.2.2.1]
      · rw [hc]
      · rw [hc]
        show ((calcDepDelay df).rows.map _).length = _
        rw [List.length_map, hrows1, List.length_map]
      · intro _ _ i hi
        rw [hget i hi]
        generalize df.rows.getD i default = r0
        constructor
        · cases hstd : r0.stdDt <;> cases hatd : r0.atdDt <;> simp [hstd, hatd]
        · intro s a hstd hatd
          simp [hstd, hatd]
      · intro _ _ i hi
        rw [hget i hi]
        generalize df.rows.getD i default = r0
        constructor
        · cases hsta : r0.staDt <;> cases hata : r0.ataDt <;> simp [hsta, hata]
        · intro s a hsta hata
          simp [hsta, hata]
    | false =>
      have hc : calculateDelays df = calcDepDelay df := by
        rw [calculateDelays, calcArrDelay, if_neg]
        rw [hflags1.1, hflags1.2.1, harr]
        simp
      have hget : ∀ i, i < df.rows.length →
          ((calculateDelays df).rows.getD i default) =
            { df.rows.getD i default with
              depDelay := (df.rows.getD i default).atdDt.bind fun a =>
                (df.rows.getD i default).stdDt.map fun s => (a - s) / 60 } := by
        intro i hi
        rw [hc, hrows1, getD_map_lt _ _ i hi default]
      refine ⟨?_, ?_, ?_, ?_, ?_, hrt⟩
      · rw [hc, hflags1.2.2.1]
      · rw [hc, hflags1.2.2.2, h2]
      · rw [hc, hrows1, List.length_map]
      · intro _ _ i hi
        rw [hget i hi]
        generalize df.rows.getD i default = r0
        constructor
        · cases hstd : r0.stdDt <;> cases hatd : r0.atdDt <;> simp [hstd, hatd]
        · intro s a hstd hatd
          simp [hstd, hatd]
      · intro hs3 hs4
        rw [hs3, hs4] at harr
        simp at harr
  | false =>
    have hc1 : calcDepDelay df = df := by
      rw [calcDepDelay, if_neg]
      simp [hdep]
    cases harr : df.hasSTAdt && df.hasATAdt with
    | true =>
      have hc : calculateDelays df = { df with
          hasArrDelay := true
          rows := df.rows.map fun r =>
            { r with arrDelay := r.ataDt.bind fun a => r.staDt.map fun s => (a - s) / 60 } } := by
        rw [calculateDelays, hc1, calcArrDelay, if_pos harr]
      have hget : ∀ i, i < df.rows.length →
          ((calculateDelays df).rows.getD i default) =
            { df.rows.getD i default with
              arrDelay := (df.rows.getD i default).ataDt.bind fun a =>
                (df.rows.getD i default).staDt.map fun s => (a - s) / 60 } := by
        intro i hi
        rw [hc]
        show (df.rows.map _).getD i default = _
        rw [getD_map_lt _ _ i hi default]
      refine ⟨?_, ?_, ?_, ?_, ?_, hrt⟩
      · rw [hc]
        show df.hasDepDelay = _
        rw [h1]
      · rw [hc]
      · rw [hc]
        show (df.rows.map _).length = _
        rw [List.length_map]
      · intro hs1 hs2
        rw [hs1, hs2] at hdep
        simp at hdep
      · intro _ _ i hi
        rw [hget i hi]
        generalize df.rows.getD i default = r0
        constructor
        · cases hsta : r0.staDt <;> cases hata : r0.ataDt <;> simp [hsta, hata]
        · intro s a hsta hata
          simp [hsta, hata]
    | false =>
      have hc : calculateDelays df = df := by
        rw [calculateDelays, hc1, calcArrDelay, if_neg]
        simp [harr]
      refine ⟨?_, ?_, ?_, ?_, ?_, hrt⟩
      · rw [hc, h1]
      · rw [hc, h2]
      · rw [hc]
      · intro hs1 hs2
        rw [hs1, hs2] at hdep
        simp at hdep
      · intro hs3 hs4
        rw [hs3, hs4] at harr
        simp at harr

/-- Witness for C2: the round-trip frame, hypotheses discharged by `rfl`. -/
theorem delay_present_iff_witness :
    ((calculateDelays dfC2rt).rows.getD 0 default).depDelay = some 15 :=
  (delay_present_iff dfC2rt rfl rfl).2.2.2.2.2

/-! ## Claim C3 -/

/-- A frame whose single record has a missing departure delay. -/
def dfC3cex : DF := { hasDepDelay := true, rows := [{ depDelay := none }] }

/-- C3 counterexample: the claim says `on_time` is absent when
`departure_delay_minutes` is absent, but
`df['Departure Delay (min)'] <= threshold` compares NaN, which pandas
evaluates to `False`: the record gets `on_time = false`, not an absent
value. -/
theorem onTime_nan_cex :
    (dfC3cex.rows.getD 0 default).depDelay = none ∧
    (addOnTimeFlag defaultParams dfC3cex).hasOnTime = true ∧
    ((addOnTimeFlag defaultParams dfC3cex).rows.getD 0 default).onTime = some false :=
  ⟨rfl, rfl, rfl⟩

/-- Boundary frame: delays exactly at the threshold and 0.01 above it. -/
def dfC3b : DF :=
  { hasDepDelay := true,
    rows := [{ depDelay := some 15 }, { depDelay := some (15 + 1/100) }] }

/-- C3 (amended): when the delay column exists, every record gets a present
`on_time` flag: `false` when the delay is absent (pandas NaN comparison),
and otherwise true iff delay ≤ threshold, with an inclusive bound (delay
= threshold ⇒ true; delay = threshold + 0.01 ⇒ false under the default
threshold 15). -/
theorem onTime_flag (p : Params) (df : DF) (h : df.hasDepDelay = true) :
    ((addOnTimeFlag p df).hasOnTime = true) ∧
    ((addOnTimeFlag p df).rows.length = df.rows.length) ∧
    (∀ i, i < df.rows.length →
      (((df.rows.getD i default).depDelay = none →
        ((addOnTimeFlag p df).rows.getD i default).onTime = some false) ∧
      (∀ d, (df.rows.getD i default).depDelay = some d →
        (((addOnTimeFlag p df).rows.getD i default).onTime = some true ↔
          d ≤ p.delay_threshold)))) ∧
    (((addOnTimeFlag defaultParams dfC3b).rows.getD 0 default).onTime = some true) ∧
    (((addOnTimeFlag defaultParams dfC3b).rows.getD 1 default).onTime = some false) := by
  have hc : addOnTimeFlag p df = { df with
      hasOnTime := true
      rows := df.rows.map fun r =>
        { r with
          onTime := some (match r.depDelay with
            | some d => decide (d ≤ p.delay_threshold)
            | none => false) } } := by
    rw [addOnTimeFlag, if_pos h]
  refine ⟨by rw [hc], by rw [hc]; exact List.length_map _ _, ?_, ?_, ?_⟩
  · intro i hi
    have hget : ((addOnTimeFlag p df).rows.getD i default) =
        { df.rows.getD i default with
          onTime := some (match (df.rows.getD i default).depDelay with
            | some d => decide (d ≤ p.delay_threshold)
            | none => false) } := by
      rw [hc]
      show (df.rows.map _).getD i default = _
      rw [getD_map_lt _ _ i hi default]
    rw [hget]
    generalize df.rows.getD i default = r0
    constructor
    · intro hnone
      simp [hnone]
    · intro d hd
      simp [hd]
  · norm_num [addOnTimeFlag, dfC3b, defaultParams]
  · norm_num [addOnTimeFlag, dfC3b, defaultParams]

/-- Witness for C3 (amended): the boundary frame, hypothesis discharged by
`rfl`. -/
theorem onTime_flag_witness :
    ((addOnTimeFlag defaultParams dfC3b).rows.getD 0 default).onTime = some true :=
  (onTime_flag defaultParams dfC3b rfl).2.2.2.1

/-! ## Claim C4 -/

/-- C4: the what-if simulation computes each simulated delay as the
original minus `reduction_minutes`, floored at −15 (absent values stay
absent), and reports the current mean, simulated mean, their difference as
the improvement, and a percent improvement that is exactly 0 when the
current mean is exactly 0; on delays 20, 2, −20 with the default reduction
(5) the simulated values are 15, −3, −15 and the improvement is 5/3
(1.667 to three decimals, as the spec renders it). -/
theorem simulation_spec (p : Params) (df : DF) (h : df.hasDepDelay = true) :
    (∀ i, i < df.rows.length →
      (simulatedDelays p df).getD i none =
        ((df.rows.getD i default).depDelay).map
          (fun d => max (d - p.simulation_delay_reduction) (-15))) ∧
    (∃ sc, runSimulations p df = some sc ∧
      sc.reductionMinutes = p.simulation_delay_reduction ∧
      sc.currentAvgDelay = listMean (df.rows.filterMap (·.depDelay)) ∧
      sc.simulatedAvgDelay = listMean ((simulatedDelays p df).reduceOption) ∧
      (∀ c s, sc.currentAvgDelay = some c → sc.simulatedAvgDelay = some s →
        sc.improvement = some (c - s)) ∧
      (sc.currentAvgDelay = some 0 → sc.percentImprovement = some 0)) ∧
    (runSimulations defaultParams exDFC4 = some
      { reductionMinutes := 5, currentAvgDelay := some (2/3),
        simulatedAvgDelay := some (-1), improvement := some (5/3),
        percentImprovement := some 250 }) ∧
    ((simulatedDelays defaultParams exDFC4).reduceOption = [15, -3, -15]) := by
  have hb : (!df.hasDepDelay) = false := by rw [h]; rfl
  refine ⟨?_, ?_, ?_, ?_⟩
  · intro i hi
    unfold simulatedDelays
    rw [getD_map_lt _ _ i hi default]
  · cases hrun : runSimulations p df with
    | none =>
      unfold runSimulations at hrun
      rw [hb] at hrun
      simp at hrun
    | some sc =>
      unfold runSimulations at hrun
      rw [hb] at hrun
      simp only [Bool.false_eq_true, if_false, Option.some.injEq] at hrun
      refine ⟨sc, rfl, ?_, ?_, ?_, ?_, ?_⟩
      · rw [← hrun]
      · rw [← hrun]
      · rw [← hrun]
      · intro c s hcur hsim
        rw [← hrun] at hcur hsim ⊢
        dsimp only at hcur hsim ⊢
        rw [hcur, hsim]
      · intro hcur
        rw [← hrun] at hcur ⊢
        dsimp only at hcur ⊢
        rw [hcur]
        simp
  · norm_num [runSimulations, simulatedDelays, listMean, exDFC4, defaultParams,
      List.filterMap_cons, List.reduceOption]
  · norm_num [simulatedDelays, exDFC4, defaultParams, List.filterMap_cons,
      List.reduceOption]

/-- Witness for C4: the spec's example frame, hypothesis discharged by
`rfl`. -/
theorem simulation_spec_witness :
    (simulatedDelays defaultParams exDFC4).reduceOption = [15, -3, -15] :=
  (simulation_spec defaultParams exDFC4 rfl).2.2.2

/-! ## Claim C1 -/

/-- C1: within a time-sorted airline group, a consecutive pair (previous,
current) yields a cascade attribution to the current record exactly when
the previous record's departure delay is present and exceeds 15 minutes,
of value `previous delay × cascade_factor`; and on airline `AB` with
delays 20, 5, 30 (factor 0.4) only the second flight is affected, with
cascade 8.0, total cascade minutes 8.0 and one affected flight. -/
theorem cascade_attribution :
    (∀ (factor : ℚ) (l : List Row) (i : ℕ) (h : i + 1 < l.length) (d : ℚ),
      (l.get ⟨i, Nat.lt_of_succ_lt h⟩).depDelay = some d → 15 < d →
      (⟨(l.get ⟨i + 1, h⟩).flightNumber, d * factor,
        (l.get ⟨i + 1, h⟩).depDelay⟩ : CascadeImpact) ∈ pairImpacts factor l) ∧
    (∀ (factor : ℚ) (l : List Row) (x : CascadeImpact), x ∈ pairImpacts factor l →
      ∃ (i : ℕ) (h : i + 1 < l.length) (d : ℚ),
        (l.get ⟨i, Nat.lt_of_succ_lt h⟩).depDelay = some d ∧ 15 < d ∧
        x = ⟨(l.get ⟨i + 1, h⟩).flightNumber, d * factor,
          (l.get ⟨i + 1, h⟩).depDelay⟩) ∧
    (cascadeImpacts defaultParams exDFC1 =
      [{ flight := some "AB2", cascadeDelay := 8, originalDelay := some 5 }]) ∧
    (cascadeAnalysis defaultParams exDFC1 = .ok (some
      { affectedFlights := 1, avgCascadeImpact := 8, totalCascadeMinutes := 8 })) := by
  refine ⟨?_, ?_, ?_, ?_⟩
  · intro factor l i h d hd h15
    exact mem_pairImpacts_iff.mpr ⟨i, h, d, hd, h15, rfl⟩
  · intro factor l x hx
    exact mem_pairImpacts_iff.mp hx
  · norm_num [cascadeImpacts, exDFC1, defaultParams, firsts, pairImpacts,
      List.insertionSort, List.orderedInsert, stdRel, List.filterMap_cons]
  · norm_num [cascadeAnalysis, cascadeImpacts, exDFC1, defaultParams, firsts,
      pairImpacts, List.insertionSort, List.orderedInsert, stdRel, List.filterMap_cons]

/-- Witness for C1: the attribution rule instantiated on the example
group's first pair. -/
theorem cascade_attribution_witness :
    (⟨some "B2", (20 : ℚ) * (2/5), some 5⟩ : CascadeImpact) ∈
      pairImpacts (2/5)
        [{ flightNumber := some "B1", depDelay := some 20 },
         { flightNumber := some "B2", depDelay := some 5 }] :=
  cascade_attribution.1 (2/5)
    [{ flightNumber := some "B1", depDelay := some 20 },
     { flightNumber := some "B2", depDelay := some 5 }]
    0 (by decide) 20 rfl (by decide)

/-! ## Claim C5 -/

/-- Blanking the `Airline` field of a row. -/
def stripAirline (r : Row) : Row := { r with airline := none }

/-- Removing the `Airline` column from a frame. -/
def removeAirline (df : DF) : DF :=
  { df with hasAirline := false, rows := df.rows.map stripAirline }

theorem filterMap_comp_strip {α β : Type} (g : α → Option β) (f : α → α)
    (hgf : ∀ r, g (f r) = g r) (l : List α) : (l.map f).filterMap g = l.filterMap g := by
  induction l with
  | nil => rfl
  | cons x xs ih =>
    rw [List.map_cons, List.filterMap_cons, List.filterMap_cons, hgf, ih]

theorem map_comp_strip {α β : Type} (g : α → β) (f : α → α)
    (hgf : ∀ r, g (f r) = g r) (l : List α) : (l.map f).map g = l.map g := by
  induction l with
  | nil => rfl
  | cons x xs ih =>
    rw [List.map_cons, List.map_cons, List.map_cons, hgf, ih]

theorem filter_comp_strip {α : Type} (p : α → Bool) (f : α → α)
    (hpf : ∀ r, p (f r) = p r) (l : List α) :
    (l.map f).filter p = (l.filter p).map f := by
  induction l with
  | nil => rfl
  | cons x xs ih =>
    rw [List.map_cons, List.filter_cons, List.filter_cons, hpf, ih]
    cases p x <;> simp

/-- A frame with `Departure Hour` and `Departure Delay (min)` but no
`Flight Number` column. -/
def dfC5cex : DF :=
  { hasDepHour := true, hasDepDelay := true, rows := [{ depHour := some 3 }] }

/-- C5 counterexample: the claim says every sub-computation degrades to an
empty mapping when a required column is missing, but `_analyze_peak_times`
only guards `Departure Hour`: its groupby aggregation reads
`Flight Number` (and `Departure Delay (min)`) unconditionally, so a frame
with an hour column but no flight-number column raises `KeyError` instead
of returning `{}`. -/
theorem subresult_missing_col_cex :
    peakAnalysis dfC5cex = .error "KeyError: Flight Number" := rfl

/-- C5 (amended): each sub-computation returns `{}` when its *guarded*
column is missing (`Departure Hour` for the peak analysis; `Airline` or
`Departure Delay (min)` for the cascade analysis; `Departure Delay (min)`
for the simulation; any delay column for the delay analysis), but the peak
analysis additionally assumes `Flight Number` exists whenever
`Departure Hour` does and raises otherwise; and a missing `Airline` column
never suppresses unrelated statistics: it leaves the delay analysis, the
simulation, the peak analysis, and the delay-only efficiency metrics
unchanged, with only `airline_performance` absent. -/
theorem subresult_guards (p : Params) (df : DF) :
    (df.hasDepHour = false → peakAnalysis df = .ok none) ∧
    (df.hasDepHour = true → df.hasFlightNumber = false →
      peakAnalysis df = .error "KeyError: Flight Number") ∧
    (df.hasAirline = false ∨ df.hasDepDelay = false →
      cascadeAnalysis p df = .ok none) ∧
    (df.hasDepDelay = false → runSimulations p df = none) ∧
    (df.hasDepDelay = false → df.hasArrDelay = false → delayAnalysis p df = none) ∧
    (delayAnalysis p (removeAirline df) = delayAnalysis p df) ∧
    (runSimulations p (removeAirline df) = runSimulations p df) ∧
    (peakAnalysis (removeAirline df) = peakAnalysis df) ∧
    ((efficiencyMetrics (removeAirline df)).airlinePerformance = none) ∧
    ((efficiencyMetrics (removeAirline df)).onTimePerformance =
      (efficiencyMetrics df).onTimePerformance) ∧
    ((efficiencyMetrics (removeAirline df)).severeDelayRate =
      (efficiencyMetrics df).severeDelayRate) := by
  refine ⟨?_, ?_, ?_, ?_, ?_, ?_, ?_, ?_, ?_, ?_, ?_⟩
  · intro h
    simp [peakAnalysis, h]
  · intro h1 h2
    simp [peakAnalysis, h1, h2]
  · intro h
    rcases h with h | h <;> simp [cascadeAnalysis, h]
  · intro h
    simp [runSimulations, h]
  · intro h1 h2
    simp [delayAnalysis, delayCols, h1, h2]
  · have h1 : (df.rows.map stripAirline).filterMap (·.depDelay) =
        df.rows.filterMap (·.depDelay) :=
      filterMap_comp_strip (fun x : Row => x.depDelay) stripAirline (fun _ => rfl) _
    have h2 : (df.rows.map stripAirline).filterMap (·.arrDelay) =
        df.rows.filterMap (·.arrDelay) :=
      filterMap_comp_strip (fun x : Row => x.arrDelay) stripAirline (fun _ => rfl) _
    have h3 : (df.rows.map stripAirline).filterMap (·.dayOfWeek) =
        df.rows.filterMap (·.dayOfWeek) :=
      filterMap_comp_strip (fun x : Row => x.dayOfWeek) stripAirline (fun _ => rfl) _
    have h4 : ∀ d : String, (df.rows.map stripAirline).filter
          (fun r => r.dayOfWeek == some d) =
        (df.rows.filter (fun r => r.dayOfWeek == some d)).map stripAirline :=
      fun d => filter_comp_strip (fun r : Row => r.dayOfWeek == some d) stripAirline (fun _ => rfl) _
    have h5 : ∀ d : String, ((df.rows.filter
          (fun r => r.dayOfWeek == some d)).map stripAirline).map
            (fun r => if df.hasDepDelay = true then r.depDelay else r.arrDelay) =
        (df.rows.filter (fun r => r.dayOfWeek == some d)).map
          (fun r => if df.hasDepDelay = true then r.depDelay else r.arrDelay) :=
      fun d => map_comp_strip (fun r : Row => if df.hasDepDelay = true then r.depDelay else r.arrDelay) stripAirline (fun _ => rfl) _
    show delayAnalysis p { df with
      hasAirline := false
      rows := df.rows.map stripAirline } = delayAnalysis p df
    unfold delayAnalysis delayCols
    dsimp only
    rw [h1, h2, h3]
    simp only [h4, h5]
  · have h1 : (df.rows.map stripAirline).filterMap (·.depDelay) =
        df.rows.filterMap (·.depDelay) :=
      filterMap_comp_strip (fun x : Row => x.depDelay) stripAirline (fun _ => rfl) _
    have h2 : (df.rows.map stripAirline).map
          (fun r => r.depDelay.map fun d => max (d - p.simulation_delay_reduction) (-15)) =
        df.rows.map
          (fun r => r.depDelay.map fun d => max (d - p.simulation_delay_reduction) (-15)) :=
      map_comp_strip (fun r : Row => r.depDelay.map fun d => max (d - p.simulation_delay_reduction) (-15)) stripAirline (fun _ => rfl) _
    show runSimulations p { df with
      hasAirline := false
      rows := df.rows.map stripAirline } = runSimulations p df
    unfold runSimulations simulatedDelays
    dsimp only
    rw [h1, h2]
  · have h1 : (df.rows.map stripAirline).filterMap (·.depHour) =
        df.rows.filterMap (·.depHour) :=
      filterMap_comp_strip (fun x : Row => x.depHour) stripAirline (fun _ => rfl) _
    have h2 : ∀ hh : ℕ, (df.rows.map stripAirline).filter
          (fun r => r.depHour == some hh) =
        (df.rows.filter (fun r => r.depHour == some hh)).map stripAirline :=
      fun hh => filter_comp_strip (fun r : Row => r.depHour == some hh) stripAirline (fun _ => rfl) _
    have h3 : ∀ (l : List Row) (hh : ℕ), mkHourStat (l.map stripAirline) hh = mkHourStat l hh := by
      intro l hh
      unfold mkHourStat
      rw [filterMap_comp_strip (fun x : Row => x.depDelay) stripAirline (fun _ => rfl),
        filterMap_comp_strip (fun x : Row => x.flightNumber) stripAirline (fun _ => rfl)]
    show peakAnalysis { df with
      hasAirline := false
      rows := df.rows.map stripAirline } = peakAnalysis df
    unfold peakAnalysis
    dsimp only
    rw [h1]
    simp only [h2, h3]
  · simp [efficiencyMetrics, removeAirline]
  · have h1 : (df.rows.map stripAirline).filterMap (·.onTime) =
        df.rows.filterMap (·.onTime) :=
      filterMap_comp_strip (fun x : Row => x.onTime) stripAirline (fun _ => rfl) _
    show (efficiencyMetrics { df with
      hasAirline := false
      rows := df.rows.map stripAirline }).onTimePerformance = _
    unfold efficiencyMetrics
    dsimp only
    rw [h1]
  · have h1 : (df.rows.map stripAirline).filter
        (fun r => decide ((r.depDelay.getD 0) > 30) && r.depDelay.isSome) =
        (df.rows.filter
          (fun r => decide ((r.depDelay.getD 0) > 30) && r.depDelay.isSome)).map stripAirline :=
      filter_comp_strip (fun r : Row => decide ((r.depDelay.getD 0) > 30) && r.depDelay.isSome) stripAirline (fun _ => rfl) _
    show (efficiencyMetrics { df with
      hasAirline := false
      rows := df.rows.map stripAirline }).severeDelayRate = _
    unfold efficiencyMetrics
    dsimp only
    rw [h1]
    simp [List.length_map]

/-- Witness for C5 (amended): the guards on the empty frame. -/
theorem subresult_guards_witness :
    peakAnalysis dfEmpty = .ok none ∧
      cascadeAnalysis defaultParams dfEmpty = .ok none :=
  ⟨(subresult_guards defaultParams dfEmpty).1 rfl,
   (subresult_guards defaultParams dfEmpty).2.2.1 (Or.inl rfl)⟩

/-! ## Claim C6 -/

/-- Airline `AA`: a timestamped flight delayed 20 minutes followed by a
record with no sortable timestamp (and hence no delay). -/
def dfC6cex : DF :=
  { hasFlightNumber := true, hasAirline := true, hasSTDdt := true, hasDepDelay := true,
    rows :=
      [{ flightNumber := some "AA1", airline := some "AA", stdDt := some 0,
         depDelay := some 20 },
       { flightNumber := some "AA2", airline := some "AA", stdDt := none }] }

/-- C6 counterexample: the claim says records lacking a sortable
scheduled-departure timestamp are excluded from cascade consideration, but
`sort_values` merely places NaT rows last: the untimestamped record `AA2`
still participates in the consecutive-pair scan and receives the cascade,
so the result counts 1 affected flight instead of 0. -/
theorem cascade_nat_cex :
    ((dfC6cex.rows.getD 1 default).stdDt = none) ∧
    (cascadeImpacts defaultParams dfC6cex =
      [{ flight := some "AA2", cascadeDelay := 8, originalDelay := none }]) ∧
    (cascadeAnalysis defaultParams dfC6cex = .ok (some
      { affectedFlights := 1, avgCascadeImpact := 8, totalCascadeMinutes := 8 })) := by
  refine ⟨rfl, ?_, ?_⟩
  · norm_num [cascadeImpacts, dfC6cex, defaultParams, firsts, pairImpacts,
      List.insertionSort, List.orderedInsert, stdRel, List.filterMap_cons]
  · norm_num [cascadeAnalysis, cascadeImpacts, dfC6cex, defaultParams, firsts,
      pairImpacts, List.insertionSort, List.orderedInsert, stdRel, List.filterMap_cons]

/-- A frame with the cascade guard columns but no rows. -/
def dfC6w : DF := { hasAirline := true, hasDepDelay := true, rows := [] }

/-- C6 (amended): in the cascade analysis, records lacking a sortable
scheduled-departure timestamp are sorted after all timestamped records of
their group (NaT last) and still participate in the pair scan;
single-flight airline groups contribute nothing (without error); and the
output reports the count of affected flights, the sum of cascade minutes,
and their quotient as the mean cascade delay, 0 when no flight is
affected. -/
theorem stdRel_none {a b : Row} (ha : a.stdDt = none) (h : stdRel a b) :
    b.stdDt = none := by
  cases hb : b.stdDt with
  | none => rfl
  | some q =>
    exfalso
    unfold stdRel at h
    rw [ha, hb] at h
    exact h

theorem cascade_bounds (p : Params) (df : DF)
    (ha : df.hasAirline = true) (hd : df.hasDepDelay = true) :
    (∀ (l : List Row) (i j : ℕ) (hi : i < (l.insertionSort stdRel).length)
        (hj : j < (l.insertionSort stdRel).length), i < j →
        ((l.insertionSort stdRel).get ⟨i, hi⟩).stdDt = none →
        ((l.insertionSort stdRel).get ⟨j, hj⟩).stdDt = none) ∧
    ((∀ a : String, (df.rows.filter fun r => r.airline == some a).length ≤ 1) →
      cascadeAnalysis p df = .ok (some
        { affectedFlights := 0, avgCascadeImpact := 0, totalCascadeMinutes := 0 })) ∧
    (∀ res, cascadeAnalysis p df = .ok (some res) →
      res.affectedFlights = (cascadeImpacts p df).length ∧
      res.totalCascadeMinutes = ((cascadeImpacts p df).map (·.cascadeDelay)).sum ∧
      res.avgCascadeImpact =
        (if res.affectedFlights = 0 then 0
         else res.totalCascadeMinutes / res.affectedFlights)) := by
  have hguard : (!df.hasAirline || !df.hasDepDelay) = false := by
    rw [ha, hd]; rfl
  refine ⟨?_, ?_, ?_⟩
  · intro l i j hi hj hij hnone
    have hsorted : List.Sorted stdRel (l.insertionSort stdRel) :=
      List.sorted_insertionSort stdRel l
    have hrel := (List.pairwise_iff_get.mp hsorted) ⟨i, hi⟩ ⟨j, hj⟩ hij
    exact stdRel_none hnone hrel
  · intro hsingle
    have himp : cascadeImpacts p df = [] := by
      unfold cascadeImpacts
      rw [List.flatMap_eq_nil_iff]
      intro a _
      have hle := hsingle a
      have hdec : decide ((df.rows.filter fun r => r.airline == some a).length > 1)
          = false := by
        simp
        omega
      dsimp only
      rw [hdec, Bool.and_false, if_neg (by simp)]
    unfold cascadeAnalysis
    rw [hguard]
    simp only [Bool.false_eq_true, if_false, himp]
    rfl
  · intro res hres
    unfold cascadeAnalysis at hres
    rw [hguard] at hres
    simp only [Bool.false_eq_true, if_false] at hres
    cases hg : (!(cascadeImpacts p df).isEmpty && !df.hasFlightNumber) with
    | true =>
      rw [hg] at hres
      simp at hres
    | false =>
      rw [hg] at hres
      simp only [Bool.false_eq_true, if_false, Except.ok.injEq, Option.some.injEq] at hres
      rw [← hres]
      refine ⟨rfl, rfl, ?_⟩
      show (if (cascadeImpacts p df).isEmpty then (0 : ℚ) else _) = _
      by_cases he : (cascadeImpacts p df).isEmpty
      · rw [if_pos he, if_pos]
        show (cascadeImpacts p df).length = 0
        simpa [List.isEmpty_iff] using he
      · rw [if_neg he, if_neg]
        show ¬ (cascadeImpacts p df).length = 0
        simpa [List.isEmpty_iff, List.length_eq_zero] using he

/-- Witness for C6 (amended): the empty frame with both guard columns. -/
theorem cascade_bounds_witness :
    cascadeAnalysis defaultParams dfC6w = .ok (some
      { affectedFlights := 0, avgCascadeImpact := 0, totalCascadeMinutes := 0 }) := by
  refine (cascade_bounds defaultParams dfC6w rfl rfl).2.1 ?_
  intro a
  simp [dfC6w]

/-! ## Claim C8 -/

/-- C8 counterexample: a duplicate blank header name becomes `unnamed1`,
which is neither of the claimed synthetic forms `unnamed_col_N` or
`date_col_N` (the source builds `f"unnamed{seen[col]}"`, without `_col_`). -/
theorem clean_columns_cex :
    cleanColumnsNames ["Flight Number", "", "x", ""] =
      ["Flight Number", "date_col_1", "x", "unnamed1"] ∧
    ("unnamed_col_".toList.isPrefixOf "unnamed1".toList = false) ∧
    ("date_col_".toList.isPrefixOf "unnamed1".toList = false) :=
  ⟨rfl, rfl, rfl⟩

/-- C8 (amended): column renaming preserves arity, and the name at
position `i` is determined by the number `k` of earlier occurrences of the
same header name: a first occurrence keeps its name, unless blank, in
which case it becomes `date_col_<i>`; a repeated occurrence has the
running counter appended — `<name><k>` for a non-blank name and
`unnamed<k>` (not `unnamed_col_<k>`) for a blank one. -/
theorem clean_columns_names (names : List String) :
    ((cleanColumnsNames names).length = names.length) ∧
    (∀ i, i < names.length →
      (cleanColumnsNames names).getD i "" = cleanNameAt names i) := by
  constructor
  · exact cleanNamesGo_length names [] 0
  · intro i hi
    have h := cleanNamesGo_getD names [] [] (fun n => by simp) i hi
    simpa using h

/-- Witness for C8 (amended): the renaming characterization at the
counterexample header. -/
theorem clean_columns_names_witness :
    (cleanColumnsNames ["Flight Number", "", "x", ""]).getD 1 "" =
      cleanNameAt ["Flight Number", "", "x", ""] 1 :=
  (clean_columns_names ["Flight Number", "", "x", ""]).2 1 (by decide)

/-! ## Claim C9 -/

theorem firstIdx_lt {s : String} : ∀ {l : List String} {j : ℕ},
    firstIdx s l = some j → j < l.length := by
  intro l
  induction l with
  | nil => intro j h; exact absurd h (by simp [firstIdx])
  | cons n ns ih =>
    intro j h
    by_cases hns : n = s
    · rw [firstIdx, if_pos hns] at h
      cases h
      simp
    · rw [firstIdx, if_neg hns] at h
      cases hfi : firstIdx s ns with
      | none =>
        rw [hfi] at h
        exact absurd h (by simp)
      | some k =>
        rw [hfi] at h
        have hk := ih hfi
        have hkj : k + 1 = j := by simpa using h
        simp only [List.length_cons]
        omega

/-- The raw table of the C9 counterexample: a header with names
`Flight Number, a, a1, a` (no duplicate header rows in the data, no empty
columns). -/
def tC9 : RawTable :=
  [[some "Flight Number", some "a", some "a1", some "a"],
   [some "FN1", some "p", some "q", some "r"]]

/-- First normalization of `tC9`: the duplicate `a` is renamed to `a1`,
colliding with the existing `a1` column name. -/
def ntC9 : NamedTable :=
  { names := ["Flight Number", "a", "a1", "a1"],
    rows := [[some "FN1", some "p", some "q", some "r"]] }

/-- Second normalization: the (new) duplicate `a1` is renamed again, to
`a11`. -/
def ntC9again : NamedTable :=
  { names := ["Flight Number", "a", "a1", "a11"],
    rows := [[some "FN1", some "p", some "q", some "r"]] }

/-- C9 counterexample: normalization is not idempotent as claimed.  The
first pass renames the duplicate header `a` to `a1`, which collides with
the pre-existing `a1`; re-running normalization on that output — which has
no duplicate header rows inside the data and no entirely-empty columns,
exactly the claim's hypotheses — renames the column again (`a11`), so the
record set changes. -/
theorem normalize_idem_cex :
    (normalizeTable tC9 = .ok ntC9) ∧
    ((ntC9.rows.filter fun r => r.getD 0 none == some "Flight Number") = []) ∧
    (∀ j, j < ntC9.names.length → (ntC9.rows.any fun r => (r.getD j none).isSome) = true) ∧
    (normalizeTable (toRaw ntC9) = .ok ntC9again) ∧
    (ntC9again ≠ ntC9) := by
  refine ⟨rfl, rfl, by decide, rfl, by decide⟩

/-- C9 (amended): re-running the structural normalization is a no-op on
any normalized table whose column names are additionally pairwise distinct
and non-blank (the first pass can output colliding names, as the
counterexample shows): with a `Flight Number` column, rectangular rows, no
all-empty rows, no all-empty columns, and no data row repeating the header
label, `normalizeTable` returns the table unchanged. -/
theorem normalize_idem (nt : NamedTable)
    (hFN : "Flight Number" ∈ nt.names)
    (hnd : nt.names.Nodup)
    (hnb : "" ∉ nt.names)
    (hrect : ∀ r ∈ nt.rows, r.length = nt.names.length)
    (hrow : ∀ r ∈ nt.rows, (r.any (·.isSome)) = true)
    (hcol : ∀ j, j < nt.names.length →
      (nt.rows.any fun r => (r.getD j none).isSome) = true)
    (hrep : ∀ r ∈ nt.rows, ∀ j, j < nt.names.length →
      firstIdx "Flight Number" nt.names = some j →
      (r.getD j none == some "Flight Number") = false) :
    normalizeTable (toRaw nt) = .ok nt := by
  have hA : dropAllNaRows (nt.names.map some :: nt.rows) =
      nt.names.map some :: nt.rows := by
    unfold dropAllNaRows
    rw [List.filter_cons]
    have hhead : ((nt.names.map some).any (·.isSome)) = true :=
      List.any_eq_true.mpr ⟨some "Flight Number", List.mem_map_of_mem _ hFN, rfl⟩
    rw [hhead]
    simp only [if_true]
    congr 1
    exact List.filter_eq_self.mpr hrow
  have hB : findHeaderRow (nt.names.map some :: nt.rows) = 0 := by
    unfold findHeaderRow
    obtain ⟨k, hk⟩ : ∃ k, min 10 (nt.names.map some :: nt.rows).length = k + 1 := by
      refine ⟨min 10 (nt.names.map some :: nt.rows).length - 1, ?_⟩
      have h10 : 0 < min 10 (nt.names.map some :: nt.rows).length := by
        rw [Nat.lt_min]
        exact ⟨by omega, by simp⟩
      omega
    have hpred : (((nt.names.map some :: nt.rows).getD 0 []).any
        fun c => containsCI (cellStr c) "Flight Number") = true := by
      show ((nt.names.map some).any fun c => containsCI (cellStr c) "Flight Number") = true
      exact List.any_eq_true.mpr
        ⟨some "Flight Number", List.mem_map_of_mem _ hFN, by decide⟩
    have hfind : ((List.range (min 10 (nt.names.map some :: nt.rows).length)).find?
        fun i => ((nt.names.map some :: nt.rows).getD i []).any
          fun c => containsCI (cellStr c) "Flight Number") = some 0 := by
      rw [hk, List.range_succ_eq_map]
      exact List.find?_cons_of_pos _ hpred
    rw [hfind]
  have hC : headerNames (nt.names.map some :: nt.rows) 0 = nt.names := by
    unfold headerNames
    show ((nt.names.map some).map fun c => c.getD "") = nt.names
    rw [List.map_map]
    exact (List.map_congr_left fun a _ => rfl).trans (List.map_id _)
  have hE : dropRepeatedHeaders nt.names nt.rows = .ok nt.rows := by
    unfold dropRepeatedHeaders
    obtain ⟨j, hj⟩ := firstIdx_isSome_of_mem hFN
    rw [hj]
    show Except.ok (nt.rows.filter fun r => !(r.getD j none == some "Flight Number")) =
      Except.ok nt.rows
    congr 1
    refine List.filter_eq_self.mpr ?_
    intro r hr
    rw [hrep r hr j (firstIdx_lt hj) hj]
    rfl
  have hF : cleanColumnsNames nt.names = nt.names :=
    cleanNamesGo_id nt.names [] 0 hnd hnb (fun _ _ => rfl)
  have hkeep : ((List.range nt.names.length).filter fun j =>
      nt.rows.any fun r => (r.getD j none).isSome) = List.range nt.names.length :=
    List.filter_eq_self.mpr fun j hj => hcol j (List.mem_range.mp hj)
  have hG : dropEmptyCols nt.names nt.rows = (nt.names, nt.rows) := by
    unfold dropEmptyCols
    rw [hkeep]
    refine Prod.ext ?_ ?_
    · exact getD_range_map "" nt.names
    · show nt.rows.map (fun r => (List.range nt.names.length).map fun j => r.getD j none)
        = nt.rows
      have hid : ∀ r ∈ nt.rows,
          (List.range nt.names.length).map (fun j => r.getD j none) = r := by
        intro r hr
        rw [← hrect r hr]
        exact getD_range_map none r
      exact (List.map_congr_left hid).trans (List.map_id _)
  show normalizeTable (nt.names.map some :: nt.rows) = .ok nt
  simp only [normalizeTable]
  rw [hA, hB, hC]
  have hdrop : (nt.names.map some :: nt.rows).drop (0 + 1) = nt.rows := rfl
  rw [hdrop, hE]
  dsimp only
  rw [hF, hG]

/-- A normalized table with distinct non-blank names, used to witness the
amended C9. -/
def ntC9w : NamedTable :=
  { names := ["Flight Number", "a"],
    rows := [[some "FN1", none], [none, some "v"]] }

/-- Witness for C9 (amended): all hypotheses hold of `ntC9w` by `decide`. -/
theorem normalize_idem_witness : normalizeTable (toRaw ntC9w) = .ok ntC9w :=
  normalize_idem ntC9w (by decide) (by decide) (by decide) (by decide) (by decide)
    (by decide) (by decide)

/-! ## Claim C7 -/

/-- A record in the spec's congestion example: hour 8, delay 5 minutes. -/
def rowC7 : Row := { flightNumber := some "F", depHour := some 8, depDelay := some 5 }

/-- Ten flights in hour 8, each delayed 5 minutes. -/
def exDFC7 : DF :=
  { hasFlightNumber := true, hasDepHour := true, hasDepDelay := true,
    rows := [rowC7, rowC7, rowC7, rowC7, rowC7, rowC7, rowC7, rowC7, rowC7, rowC7] }

/-- The hour-8 statistics of `exDFC7`: 10 flights, mean delay 5,
congestion index 50. -/
def stC7el : HourStat :=
  { hour := 8, flightCount := 10, avgDelay := some 5, stdPresent := true, congestion := 50 }

/-- The peak analysis of `exDFC7`. -/
def stC7 : PeakStats :=
  { hourlyStats := [stC7el], peakHours := [stC7el], busiestHour := 8,
    mostCongestedHour := 8 }

theorem peakAnalysis_exDFC7 : peakAnalysis exDFC7 = .ok (some stC7) := by
  have h5 : round2 5 = 5 := by norm_num [round2, roundHalfEven]
  norm_num [peakAnalysis, exDFC7, rowC7, stC7, stC7el, mkHourStat, firsts, listMean,
    h5, firstArgmax, List.insertionSort, List.orderedInsert, countGe,
    List.filterMap_cons]
  exact ⟨⟨5, ⟨by simp, rfl⟩, h5⟩,
    by
      rw [show ((if some (5:ℚ) = none then none else some (5:ℚ))) = some (5:ℚ) from rfl]
      simp [h5]
      norm_num⟩

/-- First-occurrence argmax over an hour-ascending list: the chosen entry
is maximal, and any entry tying it lies at the same or a later hour. -/
theorem argmax_first_spec (f : HourStat → ℚ) (stats : List HourStat)
    (hlt : List.Pairwise (fun a b => a.hour < b.hour) stats) (a : HourStat)
    (ha : firstArgmax f stats = some a) :
    a ∈ stats ∧ (∀ b ∈ stats, f b ≤ f a) ∧
      (∀ b ∈ stats, f b = f a → a.hour ≤ b.hour) := by
  obtain ⟨hamem, hamax, l₁, l₂, hsplit, hfirst⟩ := firstArgmax_spec f stats a ha
  refine ⟨hamem, hamax, ?_⟩
  intro b hb hbeq
  rw [hsplit] at hb hlt
  rcases List.mem_append.mp hb with hb1 | hb2
  · exact absurd hbeq (ne_of_lt (hfirst b hb1))
  · rcases List.mem_cons.mp hb2 with hba | hb3
    · rw [hba]
    · have hpc := (List.pairwise_append.mp hlt).2.1
      exact le_of_lt ((List.pairwise_cons.mp hpc).1 b hb3)

/-- C7: in the peak analysis, each hour's congestion index equals its
flight count times its (reported, 2-decimal-rounded) mean delay with a
missing mean treated as 0; the reported peak hours are 5 (or fewer) hours
whose flight counts dominate every unreported hour; and the busiest and
most congested hours are maximisers of flight count and congestion index
respectively, ties broken by the first occurrence in hour-ascending order
(equivalently, the least such hour).  On ten flights in hour 8 with mean
delay 5.0 the congestion index is 50.0. -/
theorem peak_congestion (df : DF) (st : PeakStats)
    (h : peakAnalysis df = .ok (some st)) :
    (∀ s ∈ st.hourlyStats, s.congestion = (s.flightCount : ℚ) * s.avgDelay.getD 0) ∧
    (st.peakHours.length = min 5 st.hourlyStats.length) ∧
    (∀ y ∈ st.hourlyStats, y ∉ st.peakHours →
      ∀ x ∈ st.peakHours, y.flightCount ≤ x.flightCount) ∧
    (∃ a, a ∈ st.hourlyStats ∧ st.busiestHour = a.hour ∧
      (∀ b ∈ st.hourlyStats, b.flightCount ≤ a.flightCount) ∧
      (∀ b ∈ st.hourlyStats, b.flightCount = a.flightCount → a.hour ≤ b.hour)) ∧
    (∃ a, a ∈ st.hourlyStats ∧ st.mostCongestedHour = a.hour ∧
      (∀ b ∈ st.hourlyStats, b.congestion ≤ a.congestion) ∧
      (∀ b ∈ st.hourlyStats, b.congestion = a.congestion → a.hour ≤ b.hour)) ∧
    (peakAnalysis exDFC7 = .ok (some stC7)) := by
  simp only [peakAnalysis] at h
  split at h
  · simp at h
  · split at h
    · simp at h
    · split at h
      · simp at h
      · split at h
        · simp at h
        · rename_i hg1 hg2 hg3 hne
          simp only [Except.ok.injEq, Option.some.injEq] at h
          subst h
          dsimp only
          set hours := (firsts (df.rows.filterMap fun x => x.depHour)).insertionSort
            (· ≤ ·) with hhours
          set stats := hours.map
            (fun hh => mkHourStat (df.rows.filter fun r => r.depHour == some hh) hh)
            with hstatsdef
          have hnodup : hours.Nodup :=
            ((List.perm_insertionSort _ _).nodup_iff).mpr (firsts_nodup _)
          have hsortedH : List.Sorted (· ≤ ·) hours :=
            List.sorted_insertionSort _ _
          have hltH : List.Pairwise (· < ·) hours :=
            List.Pairwise.imp₂ (fun _ _ hle hne => lt_of_le_of_ne hle hne)
              hsortedH hnodup
          have hlt : List.Pairwise (fun a b : HourStat => a.hour < b.hour) stats := by
            rw [hstatsdef, List.pairwise_map]
            exact hltH
          have hne' : stats ≠ [] := by
            intro hnil
            rw [hnil] at hne
            simp at hne
          refine ⟨?_, ?_, ?_, ?_, ?_, peakAnalysis_exDFC7⟩
          · intro s hs
            rw [hstatsdef] at hs
            obtain ⟨hh, _, rfl⟩ := List.mem_map.mp hs
            rfl
          · rw [List.length_take,
              (List.perm_insertionSort countGe stats).length_eq]
          · intro y hy hynot x hx
            have hyperm : y ∈ stats.insertionSort countGe :=
              ((List.perm_insertionSort countGe stats).mem_iff).mpr hy
            rw [← List.take_append_drop 5 (stats.insertionSort countGe)] at hyperm
            rcases List.mem_append.mp hyperm with h1 | h2
            · exact absurd h1 hynot
            · have hs2 : List.Pairwise countGe (stats.insertionSort countGe) :=
                List.sorted_insertionSort countGe stats
              rw [← List.take_append_drop 5 (stats.insertionSort countGe)] at hs2
              exact (List.pairwise_append.mp hs2).2.2 x hx y h2
          · obtain ⟨a, ha⟩ := Option.isSome_iff_exists.mp
              (firstArgmax_isSome (fun s => (s.flightCount : ℚ)) stats hne')
            obtain ⟨hamem, hamax, hafirst⟩ :=
              argmax_first_spec (fun s => (s.flightCount : ℚ)) stats hlt a ha
            refine ⟨a, hamem, by rw [ha]; rfl, ?_, ?_⟩
            · intro b hb
              exact_mod_cast hamax b hb
            · intro b hb hbeq
              exact hafirst b hb (by exact_mod_cast congrArg (Nat.cast : ℕ → ℚ) hbeq)
          · obtain ⟨a, ha⟩ := Option.isSome_iff_exists.mp
              (firstArgmax_isSome (fun s => s.congestion) stats hne')
            obtain ⟨hamem, hamax, hafirst⟩ :=
              argmax_first_spec (fun s => s.congestion) stats hlt a ha
            exact ⟨a, hamem, by rw [ha]; rfl, hamax, hafirst⟩

/-- Witness for C7: the theorem applied at the ten-flight example. -/
theorem peak_congestion_witness :
    stC7.peakHours.length = min 5 stC7.hourlyStats.length :=
  (peak_congestion exDFC7 stC7 peakAnalysis_exDFC7).2.1

end FlightRadar
